import Mathlib

/-!
Shallow embedding of the cart/pricing core of `react-testable-architecture`.

JavaScript numbers are idealised as exact rationals (`ℚ`); `Math.round` is
embedded as `fun x => ⌊x + 1/2⌋` (round half toward positive infinity, which
is the ECMAScript `Math.round` semantics). Functions that `throw` in the
source are embedded as `Except String`.
-/

namespace Storefront

/-- Embedding of JavaScript `Math.round`: rounds to the nearest integer,
halves toward positive infinity. -/
def jsRound (x : ℚ) : ℤ := ⌊x + 1/2⌋

/-- The idiom `Math.round(x * 100) / 100` used throughout `src/utils/pricing.ts`:
round to 2 decimal places. -/
def round2 (x : ℚ) : ℚ := (jsRound (x * 100) : ℚ) / 100

/-- The message of the error thrown by `calculateDiscount` in
`src/utils/pricing.ts`. -/
def discountErrorMsg : String := "Discount must be between 0 and 100"

/-- Embedding of `calculateDiscount(price, discountPercent)` from
`src/utils/pricing.ts`: throws when the percentage is out of range, otherwise
returns `price * (1 - discountPercent / 100)` rounded to 2 decimals. -/
def calculateDiscount (price discountPercent : ℚ) : Except String ℚ :=
  if discountPercent < 0 ∨ discountPercent > 100 then
    Except.error discountErrorMsg
  else
    Except.ok (round2 (price * (1 - discountPercent / 100)))

/-- The default tax rate of `calculateTax` in `src/utils/pricing.ts`
(`taxRate: number = 0.1`). -/
def defaultTaxRate : ℚ := 1/10

/-- Embedding of `calculateTax(price, taxRate)` from `src/utils/pricing.ts`.
The source defaults `taxRate` to `0.1`; call sites that omit it pass
`defaultTaxRate` here. -/
def calculateTax (price taxRate : ℚ) : ℚ := round2 (price * taxRate)

/-- A `{price, quantity}` pair as consumed by `calculateTotal`. -/
structure PriceQty where
  price : ℚ
  quantity : ℚ
  deriving DecidableEq, Repr

/-- Embedding of `calculateTotal(items)` from `src/utils/pricing.ts`:
`Math.round(items.reduce((sum, item) => sum + item.price * item.quantity, 0) * 100) / 100`. -/
def calculateTotal (items : List PriceQty) : ℚ :=
  round2 (items.foldl (fun sum item => sum + item.price * item.quantity) 0)

/-- Embedding of the `Product` record of `src/services/api.ts`. -/
structure Product where
  id : String
  name : String
  price : ℚ
  image : String
  deriving DecidableEq, Repr

/-- Embedding of `CartItem` from `src/hooks/useCart.ts`: a product plus a
quantity (a JavaScript number, hence `ℚ` here). -/
structure CartItem where
  product : Product
  quantity : ℚ
  deriving DecidableEq, Repr

/-- The four mutation operations the `useCart` hook exposes. -/
inductive CartOp where
  | addItem (product : Product)
  | removeItem (productId : String)
  | updateQuantity (productId : String) (quantity : ℚ)
  | clearCart
  deriving DecidableEq, Repr

/-- One step of the cart state: the `setItems` updater each operation of
`src/hooks/useCart.ts` applies to the previous item list. -/
def applyOp (prev : List CartItem) : CartOp → List CartItem
  | CartOp.addItem product =>
    match prev.find? (fun i => i.product.id == product.id) with
    | some _ =>
      prev.map (fun i =>
        if i.product.id == product.id then { i with quantity := i.quantity + 1 } else i)
    | none => prev ++ [{ product := product, quantity := 1 }]
  | CartOp.removeItem productId =>
    prev.filter (fun i => !(i.product.id == productId))
  | CartOp.updateQuantity productId quantity =>
    if quantity ≤ 0 then
      prev.filter (fun i => !(i.product.id == productId))
    else
      prev.map (fun i =>
        if i.product.id == productId then { i with quantity := quantity } else i)
  | CartOp.clearCart => []

/-- Run a sequence of cart operations starting from the empty cart, the
initial state `useState<CartItem[]>([])` of `useCart`. -/
def runOps (ops : List CartOp) : List CartItem := ops.foldl applyOp []

/-- A cart engine state: the stored item list plus the discount percentage
the hook was constructed with (`useCart(discountPercent)`). -/
structure CartState where
  items : List CartItem
  discountPercent : ℚ
  deriving DecidableEq, Repr

/-- Derived `subtotal` of `useCart`:
`calculateTotal(items.map(i => ({price: i.product.price, quantity: i.quantity})))`. -/
def cartSubtotal (c : CartState) : ℚ :=
  calculateTotal (c.items.map (fun i => { price := i.product.price, quantity := i.quantity }))

/-- Derived `discountedTotal` of `useCart`:
`calculateDiscount(subtotal, discountPercent)` (may throw). -/
def cartDiscountedTotal (c : CartState) : Except String ℚ :=
  calculateDiscount (cartSubtotal c) c.discountPercent

/-- Derived `tax` of `useCart`: `calculateTax(discountedTotal)` with the
default tax rate. -/
def cartTax (c : CartState) : Except String ℚ :=
  (cartDiscountedTotal c).map (fun d => calculateTax d defaultTaxRate)

/-- Derived `total` of `useCart`:
`Math.round((discountedTotal + tax) * 100) / 100`. -/
def cartTotal (c : CartState) : Except String ℚ :=
  (cartDiscountedTotal c).map (fun d => round2 (d + calculateTax d defaultTaxRate))

/-- Derived `itemCount` of `useCart`:
`items.reduce((sum, i) => sum + i.quantity, 0)`. -/
def cartItemCount (c : CartState) : ℚ :=
  c.items.foldl (fun sum i => sum + i.quantity) 0

/-- State of the `useProducts` catalog loader of `src/hooks/useProducts.ts`:
the three `useState` cells `products`, `loading`, `error`. -/
structure LoaderState where
  products : List Product
  loading : Bool
  error : Option String
  deriving DecidableEq, Repr

/-- Initial loader state: `products = []`, `loading = true`, `error = null`. -/
def initLoader : LoaderState :=
  { products := [], loading := true, error := none }

/-- Observable loader events: a non-cancelled fetch resolution (`then`
branch), a non-cancelled fetch rejection (`catch` branch), or a re-run of the
effect because the `api` dependency changed. -/
inductive LoaderEvent where
  | success (data : List Product)
  | failure (msg : String)
  | restart
  deriving DecidableEq, Repr

/-- One transition of the `useProducts` loader, from the code of its effect:
on success `setProducts(data); setLoading(false)`, on failure
`setError(err.message); setLoading(false)`, on re-invocation
`setLoading(true)`. -/
def loaderStep (s : LoaderState) : LoaderEvent → LoaderState
  | LoaderEvent.success data => { s with products := data, loading := false }
  | LoaderEvent.failure msg => { s with error := some msg, loading := false }
  | LoaderEvent.restart => { s with loading := true }

/-- Run the loader over a sequence of events from its initial state. -/
def runLoader (evs : List LoaderEvent) : LoaderState :=
  evs.foldl loaderStep initLoader

/-- Modelled from the spec: the `loading` state of the claimed three-state
machine. -/
def isLoadingState (s : LoaderState) : Prop := s.loading = true

/-- Modelled from the spec: the `ready` state — products populated, no
error, not loading. -/
def isReadyState (s : LoaderState) : Prop :=
  s.loading = false ∧ s.error = none

/-- Modelled from the spec: the `failed` state — error message populated,
empty product list, not loading. -/
def isFailedState (s : LoaderState) : Prop :=
  s.loading = false ∧ s.error ≠ none ∧ s.products = []

/-- Modelled from the spec: rounding half away from zero, the rounding mode
§4.1 claims for `applyDiscount`. -/
def roundHalfAwayFromZero (x : ℚ) : ℤ :=
  if x < 0 then -⌊-x + 1/2⌋ else ⌊x + 1/2⌋

/-- Uniqueness invariant of the cart: at most one line item per product
identifier. -/
def keyUniq (items : List CartItem) : Prop :=
  (items.map (fun i => i.product.id)).Nodup

/-! Helper lemmas about the rounding primitive and list folds. -/

theorem round2_mono {x y : ℚ} (h : x ≤ y) : round2 x ≤ round2 y := by
  have hf : (⌊x * 100 + 1/2⌋ : ℤ) ≤ ⌊y * 100 + 1/2⌋ :=
    Int.floor_le_floor (by linarith)
  have hq : ((⌊x * 100 + 1/2⌋ : ℤ) : ℚ) ≤ ((⌊y * 100 + 1/2⌋ : ℤ) : ℚ) := by
    exact_mod_cast hf
  unfold round2 jsRound
  exact (div_le_div_iff_of_pos_right (by norm_num : (0:ℚ) < 100)).mpr hq

theorem floor_half : ⌊(1:ℚ)/2⌋ = 0 := by
  apply Int.floor_eq_zero_iff.mpr
  constructor <;> norm_num

theorem round2_cents (n : ℤ) : round2 ((n : ℚ) / 100) = (n : ℚ) / 100 := by
  unfold round2 jsRound
  have h1 : ((n : ℚ) / 100) * 100 = (n : ℚ) := by field_simp
  have h2 : ⌊(n : ℚ) + 1/2⌋ = n := by
    rw [add_comm, Int.floor_add_int, floor_half, zero_add]
  rw [h1, h2]

theorem foldl_add_eq_sum {α : Type} (f : α → ℚ) (l : List α) (init : ℚ) :
    l.foldl (fun s i => s + f i) init = init + (l.map f).sum := by
  induction l generalizing init with
  | nil => simp
  | cons x xs ih => simp [List.foldl_cons, ih, add_assoc]

theorem calculateTotal_eq_round2_sum (l : List PriceQty) :
    calculateTotal l = round2 ((l.map (fun i => i.price * i.quantity)).sum) := by
  unfold calculateTotal
  rw [foldl_add_eq_sum (fun i => i.price * i.quantity) l 0, zero_add]

/-- C1: for a cart engine constructed with discount percentage 10 holding one
line item with unit price 80 and quantity 1, the derived accessors return
subtotal 80, discountedTotal 72, tax 7.2 and total 79.2, where the total is
discountedTotal + tax rounded to 2 decimals. -/
theorem c1_cart_scenario :
    cartSubtotal ⟨[⟨⟨"p1", "Item", 80, ""⟩, 1⟩], 10⟩ = 80 ∧
    cartDiscountedTotal ⟨[⟨⟨"p1", "Item", 80, ""⟩, 1⟩], 10⟩ = Except.ok 72 ∧
    cartTax ⟨[⟨⟨"p1", "Item", 80, ""⟩, 1⟩], 10⟩ = Except.ok 7.2 ∧
    cartTotal ⟨[⟨⟨"p1", "Item", 80, ""⟩, 1⟩], 10⟩ = Except.ok 79.2 ∧
    cartTotal ⟨[⟨⟨"p1", "Item", 80, ""⟩, 1⟩], 10⟩ = Except.ok (round2 (72 + 7.2)) := by
  refine ⟨?_, ?_, ?_, ?_, ?_⟩ <;>
    norm_num [cartSubtotal, cartDiscountedTotal, cartTax, cartTotal, calculateTotal,
      calculateDiscount, calculateTax, defaultTaxRate, Except.map, round2, jsRound]

/-- C3 counterexample: at amount −1/200 (−0.005) with discount 0 the code
returns 0 (JavaScript `Math.round` rounds halves toward +∞), while rounding
half away from zero on the cent boundary, as the claim states for every
amount, would give −0.01. -/
theorem c3_counterexample :
    calculateDiscount (-1/200) 0 = Except.ok 0 ∧
    ((roundHalfAwayFromZero ((-1/200) * (1 - 0/100) * 100) : ℚ) / 100) = -1/100 ∧
    (0 : ℚ) ≠ -1/100 := by
  refine ⟨?_, ?_, ?_⟩ <;>
    norm_num [calculateDiscount, roundHalfAwayFromZero, round2, jsRound]

/-- C3 amended: for every amount a ≥ 0 and discount d with 0 ≤ d ≤ 100,
`calculateDiscount` returns a × (1 − d/100) rounded half away from zero on
the cent boundary (for non-negative values this coincides with the code's
half-up rounding); moreover for every amount a, `calculateDiscount a 0`
equals `round2 a` and `calculateDiscount a 100` equals 0. -/
theorem c3_discount_rounding (a d : ℚ) :
    (0 ≤ a → 0 ≤ d → d ≤ 100 →
      calculateDiscount a d =
        Except.ok ((roundHalfAwayFromZero (a * (1 - d / 100) * 100) : ℚ) / 100)) ∧
    calculateDiscount a 0 = Except.ok (round2 a) ∧
    calculateDiscount a 100 = Except.ok 0 := by
  refine ⟨?_, ?_, ?_⟩
  · intro ha hd0 hd1
    have hin : ¬ (d < 0 ∨ d > 100) := by
      rintro (h | h) <;> linarith
    have hnonneg : (0:ℚ) ≤ a * (1 - d / 100) * 100 := by
      have h1 : (0:ℚ) ≤ 1 - d / 100 := by linarith
      positivity
    unfold calculateDiscount roundHalfAwayFromZero round2 jsRound
    rw [if_neg hin, if_neg (not_lt.mpr hnonneg)]
  · have hin : ¬ ((0:ℚ) < 0 ∨ (0:ℚ) > 100) := by norm_num
    unfold calculateDiscount
    rw [if_neg hin]
    norm_num
  · have hin : ¬ ((100:ℚ) < 0 ∨ (100:ℚ) > 100) := by norm_num
    unfold calculateDiscount
    rw [if_neg hin]
    norm_num [round2, jsRound, floor_half]

/-- C3 witness: the amended rounding description instantiated at amount 10,
discount 33, where the code returns 6.7. -/
theorem c3_witness :
    calculateDiscount 10 33 =
      Except.ok ((roundHalfAwayFromZero (10 * (1 - 33 / 100) * 100) : ℚ) / 100) ∧
    calculateDiscount 10 33 = Except.ok 6.7 :=
  ⟨(c3_discount_rounding 10 33).1 (by norm_num) (by norm_num) (by norm_num),
   by norm_num [calculateDiscount, round2, jsRound]⟩

/-- C4: `calculateDiscount` fails with the invalid-argument error exactly
when the discount percentage is below 0 or above 100; for every in-range
percentage it returns normally (it is a pure function of its arguments, so
there are no side effects to observe). -/
theorem c4_discount_error_iff (a d : ℚ) :
    (calculateDiscount a d = Except.error discountErrorMsg ↔ d < 0 ∨ 100 < d) ∧
    (0 ≤ d → d ≤ 100 →
      calculateDiscount a d = Except.ok (round2 (a * (1 - d / 100)))) := by
  constructor
  · unfold calculateDiscount
    by_cases h : d < 0 ∨ d > 100
    · rw [if_pos h]
      simpa using h
    · rw [if_neg h]
      simpa using h
  · intro h0 h1
    have hin : ¬ (d < 0 ∨ d > 100) := by
      rintro (h | h) <;> linarith
    unfold calculateDiscount
    rw [if_neg hin]

/-- C4 witness: at discount 5 the function returns normally, at discount 101
it fails with the invalid-argument error. -/
theorem c4_witness :
    calculateDiscount 100 5 = Except.ok (round2 (100 * (1 - 5 / 100))) ∧
    calculateDiscount 100 101 = Except.error discountErrorMsg :=
  ⟨(c4_discount_error_iff 100 5).2 (by norm_num) (by norm_num),
   (c4_discount_error_iff 100 101).1.mpr (by norm_num)⟩

/-- C5 counterexample: at amount 0.006 (= 3/500) and discount 0 the code
returns 0.01 > 0.006, so `calculateDiscount a d ≤ a` fails: rounding to the
cent boundary can round a sub-cent amount upward past itself. -/
theorem c5_counterexample :
    calculateDiscount (3/500) 0 = Except.ok (1/100) ∧
    ¬ ((1:ℚ)/100 ≤ 3/500) := by
  refine ⟨?_, ?_⟩ <;> norm_num [calculateDiscount, round2, jsRound]

/-- C5 amended: for every amount a ≥ 0 and discount d with 0 ≤ d ≤ 100,
`calculateDiscount a d` returns a value bounded by `round2 a` (the amount
itself rounded to the cent boundary); when a is a whole number of cents the
original bound `≤ a` follows. -/
theorem c5_discount_le (a d : ℚ) (ha : 0 ≤ a) (hd0 : 0 ≤ d) (hd1 : d ≤ 100) :
    ∃ v, calculateDiscount a d = Except.ok v ∧ v ≤ round2 a ∧
      (∀ n : ℤ, a = (n : ℚ) / 100 → v ≤ a) := by
  have hin : ¬ (d < 0 ∨ d > 100) := by
    rintro (h | h) <;> linarith
  refine ⟨round2 (a * (1 - d / 100)), ?_, ?_, ?_⟩
  · unfold calculateDiscount
    rw [if_neg hin]
  · apply round2_mono
    nlinarith [mul_nonneg ha hd0]
  · intro n hn
    have hle : round2 (a * (1 - d / 100)) ≤ round2 a := by
      apply round2_mono
      nlinarith [mul_nonneg ha hd0]
    have heq : round2 a = a := by
      rw [hn, round2_cents]
    rw [heq] at hle
    exact hle

/-- C5 witness: the amended bound instantiated at amount 49.99 (a whole
number of cents) and discount 20. -/
theorem c5_witness :
    ∃ v, calculateDiscount 49.99 20 = Except.ok v ∧ v ≤ round2 49.99 ∧
      (∀ n : ℤ, (49.99 : ℚ) = (n : ℚ) / 100 → v ≤ 49.99) :=
  c5_discount_le 49.99 20 (by norm_num) (by norm_num) (by norm_num)

/-- C8: `calculateTotal` returns the sum of price × quantity over all lines,
rounded to 2 decimals once at the end; it returns 0 on the empty list; and it
is invariant under permutations of its input. -/
theorem c8_sum_line_totals (l l2 : List PriceQty) (h : l.Perm l2) :
    calculateTotal l = round2 ((l.map (fun i => i.price * i.quantity)).sum) ∧
    calculateTotal ([] : List PriceQty) = 0 ∧
    calculateTotal l = calculateTotal l2 := by
  refine ⟨calculateTotal_eq_round2_sum l, by norm_num [calculateTotal, round2, jsRound], ?_⟩
  rw [calculateTotal_eq_round2_sum l, calculateTotal_eq_round2_sum l2,
    (h.map (fun i => i.price * i.quantity)).sum_eq]

/-- C8 witness: the permutation invariance instantiated on the two-line list
from the pricing tests, whose total is 36.5. -/
theorem c8_witness :
    calculateTotal [⟨10, 2⟩, ⟨11/2, 3⟩] = calculateTotal [⟨11/2, 3⟩, ⟨10, 2⟩] ∧
    calculateTotal ([] : List PriceQty) = 0 ∧
    calculateTotal [⟨10, 2⟩, ⟨11/2, 3⟩] = 36.5 :=
  ⟨(c8_sum_line_totals [⟨10, 2⟩, ⟨11/2, 3⟩] [⟨11/2, 3⟩, ⟨10, 2⟩] (List.Perm.swap _ _ _)).2.2,
   (c8_sum_line_totals [⟨10, 2⟩, ⟨11/2, 3⟩] [⟨11/2, 3⟩, ⟨10, 2⟩] (List.Perm.swap _ _ _)).2.1,
   by norm_num [calculateTotal, round2, jsRound]⟩

theorem map_eq_self {l : List CartItem} {f : CartItem → CartItem}
    (h : ∀ i ∈ l, f i = i) : l.map f = l := by
  induction l with
  | nil => rfl
  | cons x xs ih =>
    rw [List.map_cons, h x (by simp), ih (fun i hi => h i (by simp [hi]))]

/-- A sample two-line cart used to instantiate the operation theorems. -/
def sampleItems : List CartItem :=
  [⟨⟨"a", "A", 10, ""⟩, 1⟩, ⟨⟨"b", "B", 5, ""⟩, 2⟩]

/-- C6: `updateQuantity` with a non-positive quantity coincides with
`removeItem`; with a positive quantity it keeps every line in place (same
products, same order, no deletion, no creation) and sets the quantity of
exactly the lines matching the identifier to that value, all others
unchanged; and with a positive quantity and no matching line it leaves the
cart unchanged (no line created, no error). -/
theorem c6_update_quantity (pid : String) (q : ℚ) (items : List CartItem) :
    (q ≤ 0 →
      applyOp items (CartOp.updateQuantity pid q) = applyOp items (CartOp.removeItem pid)) ∧
    (0 < q →
      (applyOp items (CartOp.updateQuantity pid q)).map (fun i => i.product) =
        items.map (fun i => i.product) ∧
      (applyOp items (CartOp.updateQuantity pid q)).map (fun i => i.quantity) =
        items.map (fun i => if i.product.id = pid then q else i.quantity)) ∧
    (0 < q → (∀ i ∈ items, i.product.id ≠ pid) →
      applyOp items (CartOp.updateQuantity pid q) = items) := by
  refine ⟨?_, ?_, ?_⟩
  · intro hq
    simp [applyOp, if_pos hq]
  · intro hq
    rw [applyOp, if_neg (not_le.mpr hq)]
    constructor
    · rw [List.map_map]
      congr 1
      funext i
      by_cases hid : i.product.id = pid <;> simp [hid]
    · rw [List.map_map]
      congr 1
      funext i
      by_cases hid : i.product.id = pid <;> simp [hid]
  · intro hq hnone
    rw [applyOp, if_neg (not_le.mpr hq)]
    exact map_eq_self (fun i hi => if_neg (by simpa using hnone i hi))

/-- C6 witness: on the sample cart, quantity 0 behaves as removal, quantity
5 keeps both lines and sets only line "a" to 5, and quantity 5 for an
absent product is a no-op. -/
theorem c6_witness :
    applyOp sampleItems (CartOp.updateQuantity "a" 0) =
      applyOp sampleItems (CartOp.removeItem "a") ∧
    ((applyOp sampleItems (CartOp.updateQuantity "a" 5)).map (fun i => i.product) =
        sampleItems.map (fun i => i.product) ∧
      (applyOp sampleItems (CartOp.updateQuantity "a" 5)).map (fun i => i.quantity) =
        sampleItems.map (fun i => if i.product.id = "a" then 5 else i.quantity)) ∧
    applyOp sampleItems (CartOp.updateQuantity "zz" 5) = sampleItems :=
  ⟨(c6_update_quantity "a" 0 sampleItems).1 (by norm_num),
   (c6_update_quantity "a" 5 sampleItems).2.1 (by norm_num),
   (c6_update_quantity "zz" 5 sampleItems).2.2 (by norm_num) (by decide)⟩

/-- C7: if a line for the product's id exists, `addItem` increments exactly
the matching line's quantity by 1, creating no line and keeping every
product in place; otherwise it appends a new line of quantity 1 at the end,
leaving all previous lines unchanged. Adding the same product twice to the
empty cart yields one line of quantity 2. -/
theorem c7_add_item (p : Product) (items : List CartItem) :
    ((∃ i ∈ items, i.product.id = p.id) →
      (applyOp items (CartOp.addItem p)).length = items.length ∧
      (applyOp items (CartOp.addItem p)).map (fun i => i.product) =
        items.map (fun i => i.product) ∧
      (applyOp items (CartOp.addItem p)).map (fun i => i.quantity) =
        items.map (fun i => if i.product.id = p.id then i.quantity + 1 else i.quantity)) ∧
    ((∀ i ∈ items, i.product.id ≠ p.id) →
      applyOp items (CartOp.addItem p) = items ++ [⟨p, 1⟩]) ∧
    runOps [CartOp.addItem p, CartOp.addItem p] = [⟨p, 2⟩] := by
  refine ⟨?_, ?_, ?_⟩
  · intro hex
    have hsome : (items.find? (fun i => i.product.id == p.id)).isSome := by
      rw [List.find?_isSome]
      obtain ⟨i, hi, hid⟩ := hex
      exact ⟨i, hi, beq_iff_eq.mpr hid⟩
    obtain ⟨a, ha⟩ := Option.isSome_iff_exists.mp hsome
    rw [applyOp, ha]
    refine ⟨List.length_map _ _, ?_, ?_⟩
    · rw [List.map_map]
      congr 1
      funext i
      by_cases hid : i.product.id = p.id <;> simp [hid]
    · rw [List.map_map]
      congr 1
      funext i
      by_cases hid : i.product.id = p.id <;> simp [hid]
  · intro hnone
    rw [applyOp, List.find?_eq_none.mpr (fun i hi => by simpa using hnone i hi)]
  · simp [runOps, applyOp]
    norm_num

/-- C7 witness: adding an already-present product keeps the cart length at
2, and adding a fresh product appends a quantity-1 line at the end. -/
theorem c7_witness :
    (applyOp sampleItems (CartOp.addItem ⟨"a", "A", 10, ""⟩)).length = 2 ∧
    applyOp sampleItems (CartOp.addItem ⟨"c", "C", 7, ""⟩) =
      sampleItems ++ [⟨⟨"c", "C", 7, ""⟩, 1⟩] :=
  ⟨((c7_add_item ⟨"a", "A", 10, ""⟩ sampleItems).1 (by decide)).1,
   (c7_add_item ⟨"c", "C", 7, ""⟩ sampleItems).2.1 (by decide)⟩

/-- C10: `updateQuantity` with positive quantity and `removeItem` leave the
sublist of line items whose product identifier differs from the targeted one
exactly as it was: same items, same quantities, same relative order. -/
theorem c10_frame (pid : String) (q : ℚ) (items : List CartItem) (hq : 0 < q) :
    (applyOp items (CartOp.updateQuantity pid q)).filter (fun i => !(i.product.id == pid)) =
      items.filter (fun i => !(i.product.id == pid)) ∧
    (applyOp items (CartOp.removeItem pid)).filter (fun i => !(i.product.id == pid)) =
      items.filter (fun i => !(i.product.id == pid)) := by
  constructor
  · rw [applyOp, if_neg (not_le.mpr hq)]
    induction items with
    | nil => rfl
    | cons x xs ih =>
      by_cases hx : x.product.id = pid <;>
        simpa [List.filter_cons, hx] using ih
  · rw [applyOp, List.filter_filter]
    congr 1
    funext i
    rw [Bool.and_self]

/-- C10 witness: the frame condition instantiated on the sample cart,
targeting product "a" with quantity 7. -/
theorem c10_witness :
    (applyOp sampleItems (CartOp.updateQuantity "a" 7)).filter
        (fun i => !(i.product.id == "a")) =
      sampleItems.filter (fun i => !(i.product.id == "a")) ∧
    (applyOp sampleItems (CartOp.removeItem "a")).filter
        (fun i => !(i.product.id == "a")) =
      sampleItems.filter (fun i => !(i.product.id == "a")) :=
  c10_frame "a" 7 sampleItems (by norm_num)

/-- C9 counterexample: after a successful fetch, a re-invocation of the
loader and a failing fetch, the state has a populated product list together
with a populated error message while not loading — none of the three claimed
states. The effect of `useProducts` never clears `products` or `error`. -/
theorem c9_counterexample :
    runLoader [LoaderEvent.success [⟨"a", "A", 10, ""⟩], LoaderEvent.restart,
        LoaderEvent.failure "boom"] =
      ⟨[⟨"a", "A", 10, ""⟩], false, some "boom"⟩ ∧
    ¬ (isLoadingState ⟨[⟨"a", "A", 10, ""⟩], false, some "boom"⟩ ∨
       isReadyState ⟨[⟨"a", "A", 10, ""⟩], false, some "boom"⟩ ∨
       isFailedState ⟨[⟨"a", "A", 10, ""⟩], false, some "boom"⟩) := by
  refine ⟨rfl, ?_⟩
  rintro (h | h | h) <;>
    simp [isLoadingState, isReadyState, isFailedState] at h

/-- C9 amended: within a single activation the loader is the claimed
three-state machine — the initial state is `loading` with no error and no
products, a successful fetch moves it to `ready` (data populated, no error),
a failing fetch moves it to `failed` (message captured, empty product list) —
and re-invoking the loader sets the `loading` flag again; however
re-invocation clears neither the previously fetched products nor a previous
error message, so states reached after a restart and a further completion
need not be among the three. -/
theorem c9_loader_machine (d : List Product) (m : String) (s : LoaderState) :
    isLoadingState initLoader ∧ initLoader.error = none ∧ initLoader.products = [] ∧
    loaderStep initLoader (LoaderEvent.success d) = ⟨d, false, none⟩ ∧
    isReadyState (loaderStep initLoader (LoaderEvent.success d)) ∧
    loaderStep initLoader (LoaderEvent.failure m) = ⟨[], false, some m⟩ ∧
    isFailedState (loaderStep initLoader (LoaderEvent.failure m)) ∧
    isLoadingState (loaderStep s LoaderEvent.restart) := by
  refine ⟨rfl, rfl, rfl, rfl, ⟨rfl, rfl⟩, rfl, ⟨rfl, by simp [loaderStep, initLoader], rfl⟩, rfl⟩

theorem foldl_inv {α β : Type} (f : β → α → β) (P : β → Prop) :
    ∀ (l : List α) (b : β), P b → (∀ a ∈ l, ∀ x, P x → P (f x a)) → P (l.foldl f b) := by
  intro l
  induction l with
  | nil => exact fun b hb _ => hb
  | cons a as ih =>
    intro b hb hstep
    exact ih (f b a) (hstep a (by simp) b hb)
      (fun c hc x hx => hstep c (by simp [hc]) x hx)

theorem keyUniq_map (items : List CartItem) (f : CartItem → CartItem)
    (hf : ∀ i, (f i).product = i.product) (h : keyUniq items) :
    keyUniq (items.map f) := by
  unfold keyUniq at h ⊢
  rw [List.map_map]
  have hcomp : ((fun i : CartItem => i.product.id) ∘ f) =
      (fun i : CartItem => i.product.id) := by
    funext i
    rw [Function.comp_apply, hf]
  rw [hcomp]
  exact h

theorem keyUniq_filter (items : List CartItem) (p : CartItem → Bool)
    (h : keyUniq items) : keyUniq (items.filter p) :=
  h.sublist ((List.filter_sublist items).map (fun i => i.product.id))

/-- Every single operation preserves the per-product-identifier uniqueness
of the line-item list. -/
theorem keyUniq_applyOp (items : List CartItem) (op : CartOp) (h : keyUniq items) :
    keyUniq (applyOp items op) := by
  cases op with
  | addItem p =>
    rw [applyOp]
    cases hfind : items.find? (fun i => i.product.id == p.id) with
    | some a => exact keyUniq_map items _ (fun i => by by_cases hid : i.product.id = p.id <;> simp [hid]) h
    | none =>
      unfold keyUniq at h ⊢
      rw [List.map_append]
      refine h.append (by simp) ?_
      intro x hx hx2
      obtain ⟨i, hi, hid⟩ := List.mem_map.mp hx
      have hne := List.find?_eq_none.mp hfind i hi
      simp only [List.map_cons, List.map_nil, List.mem_singleton] at hx2
      exact hne (by rw [beq_iff_eq, hid, hx2])
  | removeItem pid =>
    rw [applyOp]
    exact keyUniq_filter items _ h
  | updateQuantity pid q =>
    rw [applyOp]
    by_cases hq : q ≤ 0
    · rw [if_pos hq]
      exact keyUniq_filter items _ h
    · rw [if_neg hq]
      exact keyUniq_map items _ (fun i => by by_cases hid : i.product.id = pid <;> simp [hid]) h
  | clearCart =>
    simp [applyOp, keyUniq]

/-- Every single operation preserves a quantity predicate that holds at 1,
is closed under adding 1, and holds at the quantity of any `updateQuantity`
operation that actually sets it. -/
theorem applyOp_quantity_pred (P : ℚ → Prop) (h1 : P 1)
    (hsucc : ∀ x, P x → P (x + 1)) (items : List CartItem) (op : CartOp)
    (hop : ∀ pid q, op = CartOp.updateQuantity pid q → 0 < q → P q)
    (h : ∀ i ∈ items, P i.quantity) : ∀ i ∈ applyOp items op, P i.quantity := by
  cases op with
  | addItem p =>
    rw [applyOp]
    cases hfind : items.find? (fun i => i.product.id == p.id) with
    | some a =>
      intro i hi
      obtain ⟨j, hj, hji⟩ := List.mem_map.mp hi
      by_cases hjid : j.product.id = p.id
      · rw [if_pos (beq_iff_eq.mpr hjid)] at hji
        rw [← hji]
        exact hsucc j.quantity (h j hj)
      · rw [if_neg (by simpa using hjid)] at hji
        rw [← hji]
        exact h j hj
    | none =>
      intro i hi
      rcases List.mem_append.mp hi with hmem | hmem
      · exact h i hmem
      · rw [List.mem_singleton.mp hmem]
        exact h1
  | removeItem pid =>
    rw [applyOp]
    exact fun i hi => h i (List.mem_of_mem_filter hi)
  | updateQuantity pid q =>
    rw [applyOp]
    by_cases hq : q ≤ 0
    · rw [if_pos hq]
      exact fun i hi => h i (List.mem_of_mem_filter hi)
    · rw [if_neg hq]
      intro i hi
      obtain ⟨j, hj, hji⟩ := List.mem_map.mp hi
      by_cases hjid : j.product.id = pid
      · rw [if_pos (beq_iff_eq.mpr hjid)] at hji
        rw [← hji]
        exact hop pid q rfl (not_le.mp hq)
      · rw [if_neg (by simpa using hjid)] at hji
        rw [← hji]
        exact h j hj
  | clearCart =>
    simp [applyOp]

/-- C2 counterexample: `updateQuantity` accepts any number, so after adding
a product and updating its quantity to 1.5 the cart holds a line whose
quantity is not an integer ≥ 1, refuting the integrality half of the claim
(uniqueness is untouched). -/
theorem c2_counterexample :
    runOps [CartOp.addItem ⟨"a", "A", 10, ""⟩, CartOp.updateQuantity "a" (3/2)] =
      [⟨⟨"a", "A", 10, ""⟩, 3/2⟩] ∧
    ¬ ∃ n : ℤ, (3:ℚ)/2 = (n : ℚ) ∧ 1 ≤ n := by
  constructor
  · norm_num [runOps, applyOp]
  · rintro ⟨n, hn, -⟩
    rw [div_eq_iff (by norm_num : (2:ℚ) ≠ 0)] at hn
    have hz : (3:ℤ) = n * 2 := by exact_mod_cast hn
    omega

/-- C2 amended: starting from the empty cart, after every finite sequence of
operations the line-item list has at most one line per product identifier
and every quantity is positive; when moreover every `updateQuantity` in the
sequence passes an integer quantity (the JavaScript API does not enforce
this), every line's quantity is an integer ≥ 1. -/
theorem c2_cart_invariants (ops : List CartOp) :
    keyUniq (runOps ops) ∧
    (∀ i ∈ runOps ops, 0 < i.quantity) ∧
    ((∀ pid q, CartOp.updateQuantity pid q ∈ ops → ∃ n : ℤ, q = (n : ℚ)) →
      ∀ i ∈ runOps ops, ∃ n : ℤ, i.quantity = (n : ℚ) ∧ 1 ≤ n) := by
  refine ⟨?_, ?_, ?_⟩
  · exact foldl_inv applyOp keyUniq ops []
      (by simp [keyUniq])
      (fun op _ x hx => keyUniq_applyOp x op hx)
  · exact foldl_inv applyOp (fun items => ∀ i ∈ items, 0 < i.quantity) ops []
      (by simp)
      (fun op _ x hx => applyOp_quantity_pred (fun t => 0 < t) (by norm_num)
        (fun t ht => by linarith) x op (fun pid q _ hq => hq) hx)
  · intro hint
    refine foldl_inv applyOp
      (fun items => ∀ i ∈ items, ∃ n : ℤ, i.quantity = (n : ℚ) ∧ 1 ≤ n) ops []
      (by simp) ?_
    intro op hop x hx
    refine applyOp_quantity_pred (fun t => ∃ n : ℤ, t = (n : ℚ) ∧ 1 ≤ n)
      ⟨1, by norm_num⟩ ?_ x op ?_ hx
    · rintro t ⟨n, rfl, hn⟩
      exact ⟨n + 1, by push_cast; ring, by omega⟩
    · rintro pid q rfl hq
      obtain ⟨n, rfl⟩ := hint pid q hop
      refine ⟨n, rfl, ?_⟩
      exact_mod_cast hq

/-- C2 witness: a concrete trace — add two products, re-add the first, set
its quantity to 3 — satisfies both halves of the invariant. -/
theorem c2_witness :
    keyUniq (runOps [CartOp.addItem ⟨"a", "A", 10, ""⟩, CartOp.addItem ⟨"b", "B", 5, ""⟩,
        CartOp.addItem ⟨"a", "A", 10, ""⟩, CartOp.updateQuantity "a" 3]) ∧
    ∀ i ∈ runOps [CartOp.addItem ⟨"a", "A", 10, ""⟩, CartOp.addItem ⟨"b", "B", 5, ""⟩,
        CartOp.addItem ⟨"a", "A", 10, ""⟩, CartOp.updateQuantity "a" 3],
      ∃ n : ℤ, i.quantity = (n : ℚ) ∧ 1 ≤ n :=
  ⟨(c2_cart_invariants _).1,
   (c2_cart_invariants _).2.2 (by
    intro pid q hmem
    simp only [List.mem_cons, List.not_mem_nil, or_false] at hmem
    rcases hmem with h | h | h | h
    · exact absurd h (by simp)
    · exact absurd h (by simp)
    · exact absurd h (by simp)
    · obtain ⟨-, rfl⟩ := CartOp.updateQuantity.inj h
      exact ⟨3, by norm_num⟩)⟩

end Storefront
